import Mathlib

/-!
Verification of `src/05-objects-tasks.js`: the `Rectangle` factory, the
`getJSON` / `fromJSON` pair, and the `CssCreator` CSS-selector builder with
its `cssSelectorBuilder` facade.

The JavaScript class is embedded by explicit state passing: the mutable
instance is the structure `CssCreator`, and each method becomes a function
from the pre-state to a `CallResult` holding the thrown error message (if
any) together with the post-state of the instance, including the mutations
performed before the throw.
-/

namespace ObjectsTasks

/-- The six selector fragment kinds, the strings pushed onto `this.sort`
in the source.  `class` is a Lean keyword, hence the guillemets. -/
inductive Kind where
  | element
  | id
  | «class»
  | attr
  | pseudoClass
  | pseudoElement
deriving DecidableEq

/-- The constructor field `this.sequence =
['element', 'id', 'class', 'attr', 'pseudoClass', 'pseudoElement']`;
it is the same list on every instance, so it is embedded as a constant. -/
def sequence : List Kind :=
  [Kind.element, Kind.id, Kind.«class», Kind.attr, Kind.pseudoClass, Kind.pseudoElement]

/-- The rank of a fragment kind: `this.sequence.indexOf(selector)`. -/
def rank (k : Kind) : Nat := sequence.indexOf k

/-- State of a `CssCreator` instance.  The constructor also stores its
(never-read) `value` argument; the facade always invokes `new CssCreator()`,
so the field is `none` everywhere. -/
structure CssCreator where
  value : Option String
  template : String
  counterE : Nat
  counterId : Nat
  counterPe : Nat
  sort : List Kind
deriving DecidableEq

/-- `new CssCreator()`: empty template, zero counters, empty `sort`. -/
def newCssCreator : CssCreator :=
  { value := none, template := "", counterE := 0, counterId := 0, counterPe := 0, sort := [] }

/-- The message of the `Error` thrown by `checkValid`. -/
def orderMessage : String :=
  "Selector parts should be arranged in the following order: element, id, class, attribute, pseudo-class, pseudo-element"

/-- The message of the `Error` thrown on a repeated element, id or
pseudo-element. -/
def duplicateMessage : String :=
  "Element, id and pseudo-element should not occur more then one time inside the selector"

/-- Result of one method call on a `CssCreator` instance: the thrown error
message, if the call threw, and the state of the instance after the call
(a throw keeps the mutations already performed before it). -/
structure CallResult where
  err : Option String
  state : CssCreator
deriving DecidableEq

/-- `checkValid(selector)`: called after the new kind was pushed onto
`this.sort`; when the array has more than one entry it compares the new
kind's rank with the rank of `this.sort[this.sort.length - 2]`, throwing
when the new rank is strictly smaller.  Returns the thrown message. -/
def CssCreator.checkValid (s : CssCreator) (selector : Kind) : Option String :=
  if s.sort.length > 1 then
    let prevSelector := s.sort.getD (s.sort.length - 2) Kind.element
    if sequence.indexOf selector < sequence.indexOf prevSelector then some orderMessage
    else none
  else none

/-- `element(value)`: push `'element'`, run `checkValid`, bump `counterE`,
throw on a duplicate, otherwise append `value` to `template`. -/
def CssCreator.element (s : CssCreator) (value : String) : CallResult :=
  let s1 : CssCreator := { s with sort := s.sort ++ [Kind.element] }
  match s1.checkValid Kind.element with
  | some e => ⟨some e, s1⟩
  | none =>
    let s2 : CssCreator := { s1 with counterE := s1.counterE + 1 }
    if s2.counterE > 1 then ⟨some duplicateMessage, s2⟩
    else ⟨none, { s2 with template := s2.template ++ value }⟩

/-- `id(value)`: as `element`, with counter `counterId` and rendered form
`#value`. -/
def CssCreator.id (s : CssCreator) (value : String) : CallResult :=
  let s1 : CssCreator := { s with sort := s.sort ++ [Kind.id] }
  match s1.checkValid Kind.id with
  | some e => ⟨some e, s1⟩
  | none =>
    let s2 : CssCreator := { s1 with counterId := s1.counterId + 1 }
    if s2.counterId > 1 then ⟨some duplicateMessage, s2⟩
    else ⟨none, { s2 with template := s2.template ++ "#" ++ value }⟩

/-- `class(value)`: push, `checkValid`, append `.value`; no counter. -/
def CssCreator.«class» (s : CssCreator) (value : String) : CallResult :=
  let s1 : CssCreator := { s with sort := s.sort ++ [Kind.«class»] }
  match s1.checkValid Kind.«class» with
  | some e => ⟨some e, s1⟩
  | none => ⟨none, { s1 with template := s1.template ++ "." ++ value }⟩

/-- `attr(value)`: push, `checkValid`, append `[value]`; no counter. -/
def CssCreator.attr (s : CssCreator) (value : String) : CallResult :=
  let s1 : CssCreator := { s with sort := s.sort ++ [Kind.attr] }
  match s1.checkValid Kind.attr with
  | some e => ⟨some e, s1⟩
  | none => ⟨none, { s1 with template := s1.template ++ "[" ++ value ++ "]" }⟩

/-- `pseudoClass(value)`: push, `checkValid`, append `:value`; no counter. -/
def CssCreator.pseudoClass (s : CssCreator) (value : String) : CallResult :=
  let s1 : CssCreator := { s with sort := s.sort ++ [Kind.pseudoClass] }
  match s1.checkValid Kind.pseudoClass with
  | some e => ⟨some e, s1⟩
  | none => ⟨none, { s1 with template := s1.template ++ ":" ++ value }⟩

/-- `pseudoElement(value)`: as `element`, with counter `counterPe` and
rendered form `::value`. -/
def CssCreator.pseudoElement (s : CssCreator) (value : String) : CallResult :=
  let s1 : CssCreator := { s with sort := s.sort ++ [Kind.pseudoElement] }
  match s1.checkValid Kind.pseudoElement with
  | some e => ⟨some e, s1⟩
  | none =>
    let s2 : CssCreator := { s1 with counterPe := s1.counterPe + 1 }
    if s2.counterPe > 1 then ⟨some duplicateMessage, s2⟩
    else ⟨none, { s2 with template := s2.template ++ "::" ++ value }⟩

/-- `stringify()`: returns `this.template`; reads only. -/
def CssCreator.stringify (s : CssCreator) : String := s.template

/-- `stringify()` as a state transformer: it returns `this.template` and
performs no assignment, so the post-state is the pre-state. -/
def CssCreator.stringifyOp (s : CssCreator) : String × CssCreator := (s.template, s)

/-- `combine(selector1, combinator, selector2)` (method): appends the
template literal and returns the instance; it never throws. -/
def CssCreator.combine (s : CssCreator) (selector1 combinator selector2 : String) :
    CssCreator :=
  { s with template := s.template ++ selector1 ++ " " ++ combinator ++ " " ++ selector2 }

/-- One pending fragment call, the method name with its `value` argument. -/
inductive Call where
  | element (value : String)
  | id (value : String)
  | «class» (value : String)
  | attr (value : String)
  | pseudoClass (value : String)
  | pseudoElement (value : String)
deriving DecidableEq

/-- The kind a call pushes onto `sort`. -/
def Call.kind : Call → Kind
  | .element _ => Kind.element
  | .id _ => Kind.id
  | .«class» _ => Kind.«class»
  | .attr _ => Kind.attr
  | .pseudoClass _ => Kind.pseudoClass
  | .pseudoElement _ => Kind.pseudoElement

/-- The string the call appends to `template` when it succeeds. -/
def Call.render : Call → String
  | .element v => v
  | .id v => "#" ++ v
  | .«class» v => "." ++ v
  | .attr v => "[" ++ v ++ "]"
  | .pseudoClass v => ":" ++ v
  | .pseudoElement v => "::" ++ v

/-- Dispatch one call to the corresponding method. -/
def applyCall (s : CssCreator) : Call → CallResult
  | .element v => s.element v
  | .id v => s.id v
  | .«class» v => s.«class» v
  | .attr v => s.attr v
  | .pseudoClass v => s.pseudoClass v
  | .pseudoElement v => s.pseudoElement v

/-- Run a chain of method calls on one instance.  A JavaScript chain
`b.f(x).g(y)` stops at the first throw, so the remaining calls never run. -/
def runChain (s : CssCreator) : List Call → CallResult
  | [] => ⟨none, s⟩
  | c :: cs =>
    let r := applyCall s c
    match r.err with
    | some e => ⟨some e, r.state⟩
    | none => runChain r.state cs

/-- Facade entry points of `cssSelectorBuilder`: each constructs a fresh
`CssCreator`, invokes the matching method once, and returns the instance;
a throw inside the method propagates, so the facade result is that call's
`CallResult`. -/
def cssSelectorBuilder.start (c : Call) : CallResult :=
  applyCall newCssCreator c

/-- `cssSelectorBuilder.combine`: a fresh `CssCreator` whose `combine`
method is invoked with the stringified operands. -/
def cssSelectorBuilder.combine (selector1 : CssCreator) (combinator : String)
    (selector2 : CssCreator) : CssCreator :=
  CssCreator.combine newCssCreator selector1.stringify combinator selector2.stringify

/-- `cssSelectorBuilder.combine` with the operands' states threaded
explicitly: each operand is touched only through `stringifyOp`, and the
facade returns the new builder together with both operands' post-states. -/
def cssSelectorBuilder.combineOp (selector1 : CssCreator) (combinator : String)
    (selector2 : CssCreator) : CssCreator × CssCreator × CssCreator :=
  let p1 := selector1.stringifyOp
  let p2 := selector2.stringifyOp
  (CssCreator.combine newCssCreator p1.1 combinator p2.1, p1.2, p2.2)

/-- Kind order induced by `rank`: `rle a b` says `a` may precede `b`. -/
def rle (a b : Kind) : Prop := rank a ≤ rank b

instance (a b : Kind) : Decidable (rle a b) :=
  inferInstanceAs (Decidable (rank a ≤ rank b))

instance : IsTrans Kind rle := ⟨fun _ _ _ hab hbc => Nat.le_trans hab hbc⟩

/-- The `this.sort.push(kind)` step shared by all six methods. -/
def pushState (s : CssCreator) (k : Kind) : CssCreator :=
  { s with sort := s.sort ++ [k] }

/-- The counter increment a call of kind `k` performs: `element`, `id` and
`pseudoElement` bump their counter, the other kinds touch none. -/
def bumpCounter (s : CssCreator) : Kind → CssCreator
  | .element => { s with counterE := s.counterE + 1 }
  | .id => { s with counterId := s.counterId + 1 }
  | .pseudoElement => { s with counterPe := s.counterPe + 1 }
  | _ => s

/-- The counter a kind is checked against; kinds without a counter read 0. -/
def counterVal (s : CssCreator) : Kind → Nat
  | .element => s.counterE
  | .id => s.counterId
  | .pseudoElement => s.counterPe
  | _ => 0

/-- Whether a kind carries a duplicate counter. -/
def limited : Kind → Bool
  | .element => true
  | .id => true
  | .pseudoElement => true
  | _ => false

/-- The state a successful call of `c` leaves behind: kind pushed, counter
bumped, rendered form appended to `template`. -/
def advance (s : CssCreator) (c : Call) : CssCreator :=
  { bumpCounter (pushState s c.kind) c.kind with
      template := s.template ++ c.render }

/-- The order check admits kind `k` in state `s`: either nothing was pushed
yet, or the most recently pushed kind has rank at most `rank k`. -/
def orderAdmits (s : CssCreator) (k : Kind) : Prop :=
  match s.sort.getLast? with
  | none => True
  | some p => rank p ≤ rank k

instance (s : CssCreator) (k : Kind) : Decidable (orderAdmits s k) := by
  unfold orderAdmits
  cases s.sort.getLast? with
  | none => exact isTrue trivial
  | some p => exact Nat.decLe _ _

/-- The duplicate counter of kind `k` is still free in state `s`. -/
def limitFree (s : CssCreator) (k : Kind) : Prop := counterVal s k = 0

instance (s : CssCreator) (k : Kind) : Decidable (limitFree s k) :=
  inferInstanceAs (Decidable (counterVal s k = 0))

/-- Concatenation, in call order, of the fragments' rendered forms. -/
def renderAll (l : List Call) : String :=
  l.foldr (fun c acc => c.render ++ acc) ""

/-- The object returned by `Rectangle`: fields `width` and `height` plus a
`getArea()` method.  JavaScript numbers are embedded as integers; the
source performs no arithmetic beyond one multiplication. -/
structure RectangleObj where
  width : Int
  height : Int

/-- `getArea()` closes over the constructor arguments, which equal the
stored fields, and returns `width * height`. -/
def RectangleObj.getArea (r : RectangleObj) : Int := r.width * r.height

/-- `function Rectangle(width, height)`: returns the plain object literal
`{ width, height, getArea() }`; no validation of either argument. -/
def Rectangle (width height : Int) : RectangleObj :=
  { width := width, height := height }

/-- The opening brace character, written by code point to keep braces out
of the literals. -/
def lbrace : Char := '\x7b'

/-- The closing brace character. -/
def rbrace : Char := '\x7d'


/-- Modelled from the spec: the plain data values the serialization
backend handles ("parse into a plain data record") — null, booleans,
(integral) numbers, strings, arrays and objects. -/
inductive Json where
  | null
  | bool (b : Bool)
  | num (n : Int)
  | str (s : String)
  | arr (items : List Json)
  | obj (fields : List (String × Json))

/-- The decimal digit character for `d`. -/
def digitChar (d : Nat) : Char := Char.ofNat (48 + d)

/-- Decimal digit characters of `n`, most significant first. -/
def natChars (n : Nat) : List Char :=
  if n = 0 then ['0'] else ((Nat.digits 10 n).reverse.map digitChar)

/-- Decimal rendering of an integer, `-` prefix for negatives. -/
def intChars : Int → List Char
  | Int.ofNat n => natChars n
  | Int.negSucc m => '-' :: natChars (m + 1)

/-- String escaping: quote and backslash are preceded by a backslash. -/
def escapeChar (c : Char) : List Char :=
  if c = '"' ∨ c = '\\' then ['\\', c] else [c]

/-- Escape every character of a string body. -/
def escapeChars : List Char → List Char
  | [] => []
  | c :: cs => escapeChar c ++ escapeChars cs

/-- Characters of the `null` keyword. -/
def nullChars : List Char := ['n', 'u', 'l', 'l']

/-- Characters of the `true` keyword. -/
def trueChars : List Char := ['t', 'r', 'u', 'e']

/-- Characters of the `false` keyword. -/
def falseChars : List Char := ['f', 'a', 'l', 's', 'e']

/-- A quoted, escaped string literal. -/
def strChars (s : String) : List Char :=
  '"' :: escapeChars s.data ++ ['"']

mutual

/-- Modelled from the spec: `Serialize` / `JSON.stringify`, the "canonical
textual (JSON) serialization" the source delegates to; it is not part of
`src/`. -/
def Json.stringifyChars : Json → List Char
  | .null => nullChars
  | .bool true => trueChars
  | .bool false => falseChars
  | .num n => intChars n
  | .str s => strChars s
  | .arr [] => ['[', ']']
  | .arr (v :: vs) => '[' :: (stringifyItems v vs ++ [']'])
  | .obj [] => [lbrace, rbrace]
  | .obj (f :: fs) => lbrace :: (stringifyFields f fs ++ [rbrace])
termination_by v => sizeOf v

/-- Comma-separated renderings of a non-empty array body. -/
def stringifyItems : Json → List Json → List Char
  | v, [] => v.stringifyChars
  | v, w :: vs => v.stringifyChars ++ ',' :: stringifyItems w vs
termination_by v vs => sizeOf v + sizeOf vs

/-- Comma-separated `"key":value` renderings of a non-empty object body. -/
def stringifyFields : String × Json → List (String × Json) → List Char
  | (k, v), [] => strChars k ++ ':' :: v.stringifyChars
  | (k, v), f :: fs => strChars k ++ ':' :: v.stringifyChars ++ ',' :: stringifyFields f fs
termination_by f fs => sizeOf f + sizeOf fs

end

/-- `JSON.stringify` on the modelled values, as a `String`. -/
def jsonStringify (v : Json) : String := ⟨v.stringifyChars⟩

/-- Numeric value of a digit character. -/
def charVal (c : Char) : Nat := c.toNat - 48

/-- Value of a most-significant-first digit character run. -/
def digitsToNat (ds : List Char) : Nat :=
  Nat.ofDigits 10 ((ds.map charVal).reverse)

/-- Longest digit prefix of the input, with the remainder. -/
def takeDigits : List Char → List Char × List Char
  | [] => ([], [])
  | c :: rest =>
    if c.isDigit then
      let p := takeDigits rest
      (c :: p.1, p.2)
    else ([], c :: rest)

/-- Parse a non-empty digit run into its value. -/
def parseNatChars (cs : List Char) : Option (Nat × List Char) :=
  match takeDigits cs with
  | ([], _) => none
  | (ds, r) => some (digitsToNat ds, r)

/-- Parse a string body up to the closing unescaped quote. -/
def parseStringBody : List Char → Option (List Char × List Char)
  | [] => none
  | c :: rest =>
    if c = '"' then some ([], rest)
    else if c = '\\' then
      match rest with
      | [] => none
      | c2 :: rest2 =>
        match parseStringBody rest2 with
        | some p => some (c2 :: p.1, p.2)
        | none => none
    else
      match parseStringBody rest with
      | some p => some (c :: p.1, p.2)
      | none => none

/-- Consume an expected literal character sequence. -/
def expectChars : List Char → List Char → Option (List Char)
  | [], cs => some cs
  | _ :: _, [] => none
  | p :: ps, c :: cs => if c = p then expectChars ps cs else none

/-- Finish a keyword literal (`null`, `true`, `false`). -/
def matchLit (pat : List Char) (v : Json) (cs : List Char) : Option (Json × List Char) :=
  match expectChars pat cs with
  | some r => some (v, r)
  | none => none

/-- Finish a string literal after its opening quote. -/
def parseStr (cs : List Char) : Option (Json × List Char) :=
  match parseStringBody cs with
  | some p => some (.str ⟨p.1⟩, p.2)
  | none => none

/-- Finish a negative number after its minus sign. -/
def parseNeg (cs : List Char) : Option (Json × List Char) :=
  match parseNatChars cs with
  | some p => some (.num (-(p.1 : Int)), p.2)
  | none => none

/-- Parse a non-negative number. -/
def parsePos (cs : List Char) : Option (Json × List Char) :=
  match parseNatChars cs with
  | some p => some (.num (p.1 : Int), p.2)
  | none => none

mutual

/-- Modelled from the spec: `Deserialize` / `JSON.parse`, the parser of the
serialization backend ("parse the text into a plain data object"); it is
not part of `src/`.  Fuelled recursive descent over the characters. -/
def parseValue : Nat → List Char → Option (Json × List Char)
  | 0, _ => none
  | _ + 1, [] => none
  | fuel + 1, c :: rest =>
    if c = 'n' then matchLit nullChars.tail Json.null rest
    else if c = 't' then matchLit trueChars.tail (Json.bool true) rest
    else if c = 'f' then matchLit falseChars.tail (Json.bool false) rest
    else if c = '"' then parseStr rest
    else if c = '-' then parseNeg rest
    else if c = '[' then parseArr fuel rest
    else if c = lbrace then parseObj fuel rest
    else if c.isDigit then parsePos (c :: rest)
    else none
termination_by fuel _ => (fuel, 0)

/-- After `[`: an empty array or a non-empty item list. -/
def parseArr : Nat → List Char → Option (Json × List Char)
  | _, [] => none
  | fuel, c :: rest =>
    if c = ']' then some (.arr [], rest)
    else
      match parseItems fuel (c :: rest) with
      | some p => some (.arr p.1, p.2)
      | none => none
termination_by fuel _ => (fuel, 2)

/-- After the opening brace: an empty object or a non-empty field list. -/
def parseObj : Nat → List Char → Option (Json × List Char)
  | _, [] => none
  | fuel, c :: rest =>
    if c = rbrace then some (.obj [], rest)
    else
      match parseFields fuel (c :: rest) with
      | some p => some (.obj p.1, p.2)
      | none => none
termination_by fuel _ => (fuel, 2)

/-- Parse a non-empty comma-separated array body and its closing bracket. -/
def parseItems : Nat → List Char → Option (List Json × List Char)
  | 0, _ => none
  | fuel + 1, cs =>
    match parseValue fuel cs with
    | some p => parseItemsRest fuel p.1 p.2
    | none => none
termination_by fuel _ => (fuel, 1)

/-- After one array item: a comma and more items, or the closing bracket. -/
def parseItemsRest : Nat → Json → List Char → Option (List Json × List Char)
  | _, _, [] => none
  | fuel, v, c :: rest =>
    if c = ',' then
      match parseItems fuel rest with
      | some p => some (v :: p.1, p.2)
      | none => none
    else if c = ']' then some ([v], rest)
    else none
termination_by fuel _ _ => (fuel, 2)

/-- Parse a non-empty comma-separated object body and its closing brace. -/
def parseFields : Nat → List Char → Option (List (String × Json) × List Char)
  | 0, _ => none
  | _ + 1, [] => none
  | fuel + 1, c :: rest =>
    if c = '"' then
      match parseStringBody rest with
      | some kp => parseFieldsColon fuel kp.1 kp.2
      | none => none
    else none
termination_by fuel _ => (fuel, 1)

/-- After a field key: the colon and the field value. -/
def parseFieldsColon : Nat → List Char → List Char →
    Option (List (String × Json) × List Char)
  | _, _, [] => none
  | fuel, k, c :: rest =>
    if c = ':' then
      match parseValue fuel rest with
      | some vp => parseFieldsRest fuel (⟨k⟩, vp.1) vp.2
      | none => none
    else none
termination_by fuel _ _ => (fuel, 3)

/-- After one field: a comma and more fields, or the closing brace. -/
def parseFieldsRest : Nat → String × Json → List Char →
    Option (List (String × Json) × List Char)
  | _, _, [] => none
  | fuel, kv, c :: rest =>
    if c = ',' then
      match parseFields fuel rest with
      | some p => some (kv :: p.1, p.2)
      | none => none
    else if c = rbrace then some ([kv], rest)
    else none
termination_by fuel _ _ => (fuel, 2)

end

/-- `JSON.parse` on a whole string: the input must be fully consumed. -/
def jsonParse (s : String) : Option Json :=
  match parseValue (s.length + 1) s.data with
  | some (v, []) => some v
  | _ => none

/-- `getJSON(obj)`: `return JSON.stringify(obj)`. -/
def getJSON (obj : Json) : String := jsonStringify obj

/-- An object carrying parsed data together with the prototype (method
table) attached by `Object.setPrototypeOf`. -/
structure ProtoObj (P : Type) where
  data : Json
  proto : P

/-- `fromJSON(proto, json)`: `JSON.parse` the text, attach the prototype,
return the object; a parse failure (`SyntaxError`) is `none`. -/
def fromJSON (P : Type) (proto : P) (json : String) : Option (ProtoObj P) :=
  match jsonParse json with
  | some objFromJson => some { data := objFromJson, proto := proto }
  | none => none

mutual

/-- Node-count size of a value, the fuel needed to parse it back. -/
def sizeJ : Json → Nat
  | .null => 1
  | .bool _ => 1
  | .num _ => 1
  | .str _ => 1
  | .arr vs => 1 + itemsSize vs
  | .obj fs => 1 + fieldsSize fs

def itemsSize : List Json → Nat
  | [] => 0
  | v :: vs => sizeJ v + 1 + itemsSize vs

def fieldsSize : List (String × Json) → Nat
  | [] => 0
  | (_, v) :: fs => sizeJ v + 1 + fieldsSize fs

end

/-- The continuations a parsed number meets never start with a digit. -/
def boundary : List Char → Prop
  | [] => True
  | c :: _ => c.isDigit = false

end ObjectsTasks

namespace ObjectsTasks

lemma checkValid_push (s : CssCreator) (k : Kind) :
    (pushState s k).checkValid k =
      s.sort.getLast?.bind fun p =>
        if rank k < rank p then some orderMessage else none := by
  unfold CssCreator.checkValid pushState
  have hlen1 : (s.sort ++ [k]).length = s.sort.length + 1 := by simp
  rw [hlen1]
  cases hl : s.sort.getLast? with
  | none =>
    have hnil : s.sort = [] := List.getLast?_eq_none_iff.mp hl
    simp [hnil]
  | some p =>
    have hne : s.sort ≠ [] := by
      intro h
      rw [h] at hl
      simp at hl
    have hpos : 1 ≤ s.sort.length := List.length_pos.mpr hne
    have hget : (s.sort ++ [k]).getD (s.sort.length + 1 - 2) Kind.element = p := by
      have h2 : s.sort.length + 1 - 2 = s.sort.length - 1 := by omega
      rw [h2, List.getD_eq_getElem?_getD, List.getElem?_append,
        if_pos (show s.sort.length - 1 < s.sort.length by omega),
        ← List.getLast?_eq_getElem?, hl]
      rfl
    rw [if_pos (show s.sort.length + 1 > 1 by omega), hget]
    rfl

lemma applyCall_eq (s : CssCreator) (c : Call) :
    applyCall s c =
      match (pushState s c.kind).checkValid c.kind with
      | some e => ⟨some e, pushState s c.kind⟩
      | none =>
        if counterVal (bumpCounter (pushState s c.kind) c.kind) c.kind > 1 then
          ⟨some duplicateMessage, bumpCounter (pushState s c.kind) c.kind⟩
        else ⟨none, advance s c⟩ := by
  cases c with
  | element v =>
    show CssCreator.element s v = _
    unfold CssCreator.element
    simp only [Call.kind, pushState]
    split <;> simp [bumpCounter, counterVal, advance, Call.kind, Call.render, pushState,
      String.append_assoc]
  | id v =>
    show CssCreator.id s v = _
    unfold CssCreator.id
    simp only [Call.kind, pushState]
    split <;> simp [bumpCounter, counterVal, advance, Call.kind, Call.render, pushState,
      String.append_assoc]
  | «class» v =>
    show CssCreator.«class» s v = _
    unfold CssCreator.«class»
    simp only [Call.kind, pushState]
    split <;> simp [bumpCounter, counterVal, advance, Call.kind, Call.render, pushState,
      String.append_assoc]
  | attr v =>
    show CssCreator.attr s v = _
    unfold CssCreator.attr
    simp only [Call.kind, pushState]
    split <;> simp [bumpCounter, counterVal, advance, Call.kind, Call.render, pushState,
      String.append_assoc]
  | pseudoClass v =>
    show CssCreator.pseudoClass s v = _
    unfold CssCreator.pseudoClass
    simp only [Call.kind, pushState]
    split <;> simp [bumpCounter, counterVal, advance, Call.kind, Call.render, pushState,
      String.append_assoc]
  | pseudoElement v =>
    show CssCreator.pseudoElement s v = _
    unfold CssCreator.pseudoElement
    simp only [Call.kind, pushState]
    split <;> simp [bumpCounter, counterVal, advance, Call.kind, Call.render, pushState,
      String.append_assoc]

lemma checkValid_push_none_iff (s : CssCreator) (k : Kind) :
    (pushState s k).checkValid k = none ↔ orderAdmits s k := by
  rw [checkValid_push]
  unfold orderAdmits
  cases s.sort.getLast? with
  | none => simp
  | some p =>
    have hb : ((some p).bind fun q => if rank k < rank q then some orderMessage else none)
        = if rank k < rank p then some orderMessage else none := rfl
    rw [hb]
    constructor
    · intro hnone
      by_contra hc
      rw [if_pos (by omega)] at hnone
      exact Option.some_ne_none _ hnone
    · intro hle
      rw [if_neg (by omega)]

lemma dup_check_iff (s : CssCreator) (k : Kind) :
    counterVal (bumpCounter (pushState s k) k) k > 1 ↔ ¬ limitFree s k := by
  cases k <;> simp [bumpCounter, counterVal, pushState, limitFree] <;> omega

lemma applyCall_success (s : CssCreator) (c : Call)
    (ho : orderAdmits s c.kind) (hl : limitFree s c.kind) :
    applyCall s c = ⟨none, advance s c⟩ := by
  rw [applyCall_eq]
  have h1 : (pushState s c.kind).checkValid c.kind = none :=
    (checkValid_push_none_iff s c.kind).mpr ho
  simp only [h1]
  rw [if_neg (fun hgt => (dup_check_iff s c.kind).mp hgt hl)]

lemma applyCall_order_fail (s : CssCreator) (c : Call) (p : Kind)
    (hlast : s.sort.getLast? = some p) (hlt : rank c.kind < rank p) :
    applyCall s c = ⟨some orderMessage, pushState s c.kind⟩ := by
  rw [applyCall_eq]
  have h1 : (pushState s c.kind).checkValid c.kind = some orderMessage := by
    rw [checkValid_push, hlast]
    simp [hlt]
  simp only [h1]

lemma applyCall_dup (s : CssCreator) (c : Call)
    (ho : orderAdmits s c.kind) (hl : ¬ limitFree s c.kind) :
    applyCall s c = ⟨some duplicateMessage, bumpCounter (pushState s c.kind) c.kind⟩ := by
  rw [applyCall_eq]
  have h1 : (pushState s c.kind).checkValid c.kind = none :=
    (checkValid_push_none_iff s c.kind).mpr ho
  simp only [h1]
  rw [if_pos ((dup_check_iff s c.kind).mpr hl)]

lemma applyCall_err_none_iff (s : CssCreator) (c : Call) :
    (applyCall s c).err = none ↔ orderAdmits s c.kind ∧ limitFree s c.kind := by
  constructor
  · intro h
    by_cases ho : orderAdmits s c.kind
    · by_cases hl : limitFree s c.kind
      · exact ⟨ho, hl⟩
      · rw [applyCall_dup s c ho hl] at h
        simp at h
    · rw [applyCall_eq] at h
      cases hcv : (pushState s c.kind).checkValid c.kind with
      | some e =>
        rw [hcv] at h
        simp at h
      | none => exact absurd ((checkValid_push_none_iff s c.kind).mp hcv) ho
  · rintro ⟨ho, hl⟩
    rw [applyCall_success s c ho hl]

lemma bumpCounter_template (s : CssCreator) (k : Kind) :
    (bumpCounter s k).template = s.template := by
  cases k <;> rfl

lemma bumpCounter_sort (s : CssCreator) (k : Kind) :
    (bumpCounter s k).sort = s.sort := by
  cases k <;> rfl

lemma applyCall_fail_state (s : CssCreator) (c : Call)
    (h : (applyCall s c).err ≠ none) :
    (applyCall s c).state.template = s.template ∧
    (applyCall s c).state.sort = s.sort ++ [c.kind] ∧
    (∀ k : Kind, counterVal s k ≤ counterVal (applyCall s c).state k) := by
  rw [applyCall_eq] at h ⊢
  cases hcv : (pushState s c.kind).checkValid c.kind with
  | some e =>
    simp only [hcv]
    refine ⟨rfl, rfl, ?_⟩
    intro k
    cases k <;> simp [pushState, counterVal]
  | none =>
    simp only [hcv] at h ⊢
    by_cases hdup : counterVal (bumpCounter (pushState s c.kind) c.kind) c.kind > 1
    · rw [if_pos hdup]
      refine ⟨?_, ?_, ?_⟩
      · rw [bumpCounter_template]
        rfl
      · rw [bumpCounter_sort]
        rfl
      · intro k
        cases hk : c.kind <;> cases k <;>
          simp [bumpCounter, pushState, counterVal, hk]
    · rw [if_neg hdup] at h
      simp at h

lemma runChain_cons_eq (s : CssCreator) (c : Call) (cs : List Call) :
    runChain s (c :: cs) =
      match (applyCall s c).err with
      | some e => ⟨some e, (applyCall s c).state⟩
      | none => runChain (applyCall s c).state cs := rfl

lemma advance_sort (s : CssCreator) (c : Call) :
    (advance s c).sort = s.sort ++ [c.kind] := by
  show (bumpCounter (pushState s c.kind) c.kind).sort = _
  rw [bumpCounter_sort]
  rfl

lemma advance_template (s : CssCreator) (c : Call) :
    (advance s c).template = s.template ++ c.render := rfl

lemma advance_getLast (s : CssCreator) (c : Call) :
    (advance s c).sort.getLast? = some c.kind := by
  rw [advance_sort]
  exact List.getLast?_concat _

lemma counterVal_advance (s : CssCreator) (c : Call) (k : Kind) :
    counterVal (advance s c) k =
      counterVal s k + (if k = c.kind ∧ limited k then 1 else 0) := by
  cases hk : c.kind <;> cases k <;>
    simp [advance, bumpCounter, pushState, counterVal, limited, hk]

lemma counterVal_advance_le (s : CssCreator) (c : Call) (k : Kind) :
    counterVal (advance s c) k ≤ counterVal s k + (if c.kind == k then 1 else 0) := by
  rw [counterVal_advance]
  by_cases h : k = c.kind
  · subst h
    simp only [beq_self_eq_true, if_true, true_and]
    split <;> omega
  · simp only [beq_iff_eq]
    rw [if_neg (fun hc => h hc.1), if_neg (fun hc => h (Eq.symm hc))]

lemma run_ok (l : List Call) : ∀ (s : CssCreator),
    List.Chain' rle (s.sort.getLast?.toList ++ l.map Call.kind) →
    counterVal s Kind.element + (l.map Call.kind).count Kind.element ≤ 1 →
    counterVal s Kind.id + (l.map Call.kind).count Kind.id ≤ 1 →
    counterVal s Kind.pseudoElement + (l.map Call.kind).count Kind.pseudoElement ≤ 1 →
    runChain s l = ⟨none, l.foldl advance s⟩ := by
  induction l with
  | nil =>
    intro s _ _ _ _
    rfl
  | cons c cs ih =>
    intro s hchain he hi hp
    have ho : orderAdmits s c.kind := by
      unfold orderAdmits
      cases hlast : s.sort.getLast? with
      | none => trivial
      | some p =>
        rw [hlast] at hchain
        simp only [Option.toList_some, List.map_cons, List.singleton_append] at hchain
        exact (List.chain'_cons.mp hchain).1
    have htail : List.Chain' rle (c.kind :: cs.map Call.kind) := by
      cases hlast : s.sort.getLast? with
      | none =>
        rw [hlast] at hchain
        simpa using hchain
      | some p =>
        rw [hlast] at hchain
        simp only [Option.toList_some, List.map_cons, List.singleton_append] at hchain
        exact (List.chain'_cons.mp hchain).2
    have hfree : limitFree s c.kind := by
      unfold limitFree
      simp only [counterVal] at he hi hp
      cases hk : c.kind <;> simp only [counterVal]
      · rw [List.map_cons, hk, List.count_cons_self] at he
        omega
      · rw [List.map_cons, hk, List.count_cons_self] at hi
        omega
      · rw [List.map_cons, hk, List.count_cons_self] at hp
        omega
    rw [runChain_cons_eq, applyCall_success s c ho hfree]
    show runChain (advance s c) cs = ⟨none, cs.foldl advance (advance s c)⟩
    apply ih
    · rw [advance_getLast]
      simpa using htail
    · have hle := counterVal_advance_le s c Kind.element
      rw [List.map_cons, List.count_cons] at he
      omega
    · have hle := counterVal_advance_le s c Kind.id
      rw [List.map_cons, List.count_cons] at hi
      omega
    · have hle := counterVal_advance_le s c Kind.pseudoElement
      rw [List.map_cons, List.count_cons] at hp
      omega

lemma foldl_advance_template (l : List Call) : ∀ (s : CssCreator),
    (l.foldl advance s).template = s.template ++ renderAll l := by
  induction l with
  | nil =>
    intro s
    simp [renderAll, String.append_empty]
  | cons c cs ih =>
    intro s
    show (cs.foldl advance (advance s c)).template = _
    rw [ih, advance_template]
    show _ = s.template ++ (c.render ++ renderAll cs)
    rw [String.append_assoc]

lemma runChain_success_facts (l : List Call) : ∀ (s : CssCreator),
    (runChain s l).err = none →
    List.Chain' rle (s.sort.getLast?.toList ++ l.map Call.kind) ∧
    (runChain s l).state.sort = s.sort ++ l.map Call.kind := by
  induction l with
  | nil =>
    intro s _
    constructor
    · cases s.sort.getLast? <;> simp [List.chain'_singleton]
    · simp [runChain]
  | cons c cs ih =>
    intro s h
    rw [runChain_cons_eq] at h
    cases herr : (applyCall s c).err with
    | some e =>
      rw [herr] at h
      simp at h
    | none =>
      obtain ⟨ho, hfree⟩ := (applyCall_err_none_iff s c).mp herr
      have hstep : applyCall s c = ⟨none, advance s c⟩ := applyCall_success s c ho hfree
      rw [hstep] at h
      have h2 : (runChain (advance s c) cs).err = none := h
      obtain ⟨hch, hsort⟩ := ih (advance s c) h2
      rw [advance_getLast] at hch
      simp only [Option.toList_some, List.singleton_append] at hch
      constructor
      · cases hlast : s.sort.getLast? with
        | none => simpa using hch
        | some p =>
          simp only [Option.toList_some, List.map_cons, List.singleton_append]
          rw [List.chain'_cons]
          refine ⟨?_, hch⟩
          unfold orderAdmits at ho
          rw [hlast] at ho
          exact ho
      · rw [runChain_cons_eq, hstep]
        show (runChain (advance s c) cs).state.sort = s.sort ++ List.map Call.kind (c :: cs)
        rw [hsort, advance_sort]
        simp

lemma rank_le_pseudoElement (p : Kind) : rank p ≤ rank Kind.pseudoElement := by
  cases p <;> decide

lemma orderAdmits_pseudoElement (s : CssCreator) : orderAdmits s Kind.pseudoElement := by
  unfold orderAdmits
  cases s.sort.getLast? with
  | none => trivial
  | some p => exact rank_le_pseudoElement p

lemma replicate_chain_ok (c : Call) (n : Nat)
    (he : c.kind ≠ Kind.element) (hi : c.kind ≠ Kind.id) (hp : c.kind ≠ Kind.pseudoElement) :
    (runChain newCssCreator (List.replicate n c)).err = none := by
  rw [run_ok (List.replicate n c) newCssCreator]
  · rw [List.map_replicate]
    show List.Chain' rle (List.replicate n c.kind)
    exact List.chain'_replicate_of_rel n (Nat.le_refl (rank c.kind))
  · rw [List.map_replicate, List.count_replicate]
    have : (c.kind == Kind.element) = false := by
      simpa using he
    rw [this]
    simp [newCssCreator, counterVal]
  · rw [List.map_replicate, List.count_replicate]
    have : (c.kind == Kind.id) = false := by
      simpa using hi
    rw [this]
    simp [newCssCreator, counterVal]
  · rw [List.map_replicate, List.count_replicate]
    have : (c.kind == Kind.pseudoElement) = false := by
      simpa using hp
    rw [this]
    simp [newCssCreator, counterVal]

lemma charVal_digitChar (d : Nat) (h : d < 10) : charVal (digitChar d) = d := by
  unfold charVal digitChar
  interval_cases d <;> decide

lemma isDigit_digitChar (d : Nat) (h : d < 10) : (digitChar d).isDigit = true := by
  unfold digitChar
  interval_cases d <;> decide

lemma natChars_ne_nil (n : Nat) : natChars n ≠ [] := by
  unfold natChars
  split
  · simp
  · next h =>
    intro hc
    have h2 : (Nat.digits 10 n).reverse = [] := by simpa using hc
    have h3 : Nat.digits 10 n = [] := by simpa using h2
    exact (Nat.digits_ne_nil_iff_ne_zero.mpr h) h3

lemma natChars_all_digits (n : Nat) : ∀ c ∈ natChars n, c.isDigit = true := by
  unfold natChars
  split
  · intro c hc
    simp at hc
    rw [hc]
    decide
  · intro c hc
    obtain ⟨d, hd, hdc⟩ := List.mem_map.mp hc
    rw [← hdc]
    exact isDigit_digitChar d
      (Nat.digits_lt_base (by norm_num) (List.mem_reverse.mp hd))

lemma digitsToNat_natChars (n : Nat) : digitsToNat (natChars n) = n := by
  unfold natChars
  split
  · next h =>
    subst h
    decide
  · next h =>
    unfold digitsToNat
    rw [List.map_map, List.map_reverse, List.reverse_reverse]
    have hmap : (Nat.digits 10 n).map (charVal ∘ digitChar) = Nat.digits 10 n := by
      conv_rhs => rw [← List.map_id (Nat.digits 10 n)]
      apply List.map_congr_left
      intro d hd
      exact charVal_digitChar d (Nat.digits_lt_base (by norm_num) hd)
    rw [hmap, Nat.ofDigits_digits]

lemma takeDigits_append (ds : List Char) : ∀ (rest : List Char),
    (∀ c ∈ ds, c.isDigit = true) → boundary rest →
    takeDigits (ds ++ rest) = (ds, rest) := by
  induction ds with
  | nil =>
    intro rest _ hb
    cases rest with
    | nil => rfl
    | cons c r =>
      have hb2 : c.isDigit = false := hb
      show takeDigits (c :: r) = ([], c :: r)
      simp [takeDigits, hb2]
  | cons c ds2 ih =>
    intro rest hd hb
    have hc : c.isDigit = true := hd c (by simp)
    show takeDigits (c :: (ds2 ++ rest)) = (c :: ds2, rest)
    simp only [takeDigits, hc, if_true]
    rw [ih rest (fun a ha => hd a (by simp [ha])) hb]

lemma parseNatChars_round (n : Nat) (rest : List Char) (hb : boundary rest) :
    parseNatChars (natChars n ++ rest) = some (n, rest) := by
  unfold parseNatChars
  rw [takeDigits_append (natChars n) rest (natChars_all_digits n) hb]
  cases hnc : natChars n with
  | nil => exact absurd hnc (natChars_ne_nil n)
  | cons c cs =>
    show some (digitsToNat (c :: cs), rest) = some (n, rest)
    rw [← hnc, digitsToNat_natChars]

lemma parseStringBody_round (s : List Char) : ∀ (rest : List Char),
    parseStringBody (escapeChars s ++ '"' :: rest) = some (s, rest) := by
  induction s with
  | nil =>
    intro rest
    show parseStringBody ('"' :: rest) = some ([], rest)
    rw [parseStringBody.eq_def]
    simp
  | cons c cs ih =>
    intro rest
    show parseStringBody ((escapeChar c ++ escapeChars cs) ++ '"' :: rest) = _
    by_cases hc : c = '"' ∨ c = '\\'
    · have he : escapeChar c = ['\\', c] := by simp [escapeChar, hc]
      rw [he]
      show parseStringBody ('\\' :: c :: (escapeChars cs ++ '"' :: rest)) = _
      rw [parseStringBody.eq_def]
      simp [ih rest]
    · push_neg at hc
      have he : escapeChar c = [c] := by
        unfold escapeChar
        rw [if_neg (by simpa using hc)]
      rw [he]
      show parseStringBody (c :: (escapeChars cs ++ '"' :: rest)) = _
      rw [parseStringBody.eq_def]
      simp [hc.1, hc.2, ih rest]

lemma sizeJ_pos (v : Json) : 1 ≤ sizeJ v := by
  cases v <;> simp [sizeJ]

lemma itemsSize_cons (v : Json) (vs : List Json) :
    itemsSize (v :: vs) = sizeJ v + 1 + itemsSize vs := by
  simp [itemsSize]

lemma fieldsSize_cons (k : String) (v : Json) (fs : List (String × Json)) :
    fieldsSize ((k, v) :: fs) = sizeJ v + 1 + fieldsSize fs := by
  simp [fieldsSize]

lemma digit_head_cases (c : Char) (h : c.isDigit = true) :
    c ≠ 'n' ∧ c ≠ 't' ∧ c ≠ 'f' ∧ c ≠ '"' ∧ c ≠ '-' ∧ c ≠ '[' ∧ c ≠ lbrace := by
  refine ⟨?_, ?_, ?_, ?_, ?_, ?_, ?_⟩ <;>
    (intro he; rw [he] at h; exact absurd h (by decide))

lemma stringify_head (v : Json) :
    ∃ c cs, v.stringifyChars = c :: cs ∧ c ≠ ']' ∧ c ≠ rbrace := by
  cases v with
  | null =>
    exact ⟨'n', ['u', 'l', 'l'], by simp [Json.stringifyChars, nullChars], by decide, by decide⟩
  | bool b =>
    cases b with
    | false =>
      exact ⟨'f', ['a', 'l', 's', 'e'], by simp [Json.stringifyChars, falseChars], by decide,
        by decide⟩
    | true =>
      exact ⟨'t', ['r', 'u', 'e'], by simp [Json.stringifyChars, trueChars], by decide,
        by decide⟩
  | num n =>
    cases n with
    | ofNat m =>
      cases hnc : natChars m with
      | nil => exact absurd hnc (natChars_ne_nil m)
      | cons c cs =>
        have hcd : c.isDigit = true := natChars_all_digits m c (by rw [hnc]; simp)
        refine ⟨c, cs, by simp [Json.stringifyChars, intChars, hnc], ?_, ?_⟩ <;>
          (intro he; rw [he] at hcd; exact absurd hcd (by decide))
    | negSucc m =>
      exact ⟨'-', natChars (m + 1), by simp [Json.stringifyChars, intChars], by decide,
        by decide⟩
  | str s =>
    exact ⟨'"', escapeChars s.data ++ ['"'], by simp [Json.stringifyChars, strChars],
      by decide, by decide⟩
  | arr items =>
    cases items with
    | nil => exact ⟨'[', [']'], by simp [Json.stringifyChars], by decide, by decide⟩
    | cons v vs =>
      exact ⟨'[', stringifyItems v vs ++ [']'], by simp [Json.stringifyChars], by decide,
        by decide⟩
  | obj fields =>
    cases fields with
    | nil => exact ⟨lbrace, [rbrace], by simp [Json.stringifyChars], by decide, by decide⟩
    | cons f fs =>
      exact ⟨lbrace, stringifyFields f fs ++ [rbrace], by simp [Json.stringifyChars],
        by decide, by decide⟩

lemma stringifyItems_eq (v : Json) (vs : List Json) :
    ∃ t, stringifyItems v vs = v.stringifyChars ++ t := by
  cases vs with
  | nil => exact ⟨[], by simp [stringifyItems]⟩
  | cons w vs2 => exact ⟨',' :: stringifyItems w vs2, by simp [stringifyItems]⟩

lemma stringifyFields_eq (kv : String × Json) (fs : List (String × Json)) :
    ∃ t, stringifyFields kv fs = '"' :: t := by
  obtain ⟨k, v⟩ := kv
  cases fs with
  | nil =>
    exact ⟨escapeChars k.data ++ ['"'] ++ ':' :: v.stringifyChars,
      by simp [stringifyFields, strChars]⟩
  | cons f2 fs2 =>
    exact ⟨escapeChars k.data ++ ['"'] ++ ':' :: v.stringifyChars ++
        ',' :: stringifyFields f2 fs2,
      by simp [stringifyFields, strChars]⟩

mutual

theorem sizeJ_le_len : ∀ (v : Json), sizeJ v ≤ v.stringifyChars.length
  | .null => by simp [sizeJ, Json.stringifyChars, nullChars]
  | .bool b => by cases b <;> simp [sizeJ, Json.stringifyChars, trueChars, falseChars]
  | .num n => by
    have h1 : 1 ≤ (intChars n).length := by
      cases n with
      | ofNat m =>
        have := natChars_ne_nil m
        simp [intChars]
        exact List.length_pos.mpr this
      | negSucc m => simp [intChars]
    simp only [sizeJ, Json.stringifyChars]
    exact h1
  | .str s => by
    simp [sizeJ, Json.stringifyChars, strChars]
  | .arr [] => by simp [sizeJ, itemsSize, Json.stringifyChars]
  | .arr (v :: vs) => by
    have h := itemsSize_le_len v vs
    simp only [sizeJ, Json.stringifyChars, itemsSize] at h ⊢
    simp only [List.length_append, List.length_cons, List.length_nil]
    omega
  | .obj [] => by simp [sizeJ, fieldsSize, Json.stringifyChars]
  | .obj (f :: fs) => by
    have h := fieldsSize_le_len f fs
    simp only [sizeJ, Json.stringifyChars, fieldsSize] at h ⊢
    simp only [List.length_cons, List.length_append, List.length_nil]
    omega
termination_by v => sizeOf v

theorem itemsSize_le_len : ∀ (v : Json) (vs : List Json),
    itemsSize (v :: vs) ≤ (stringifyItems v vs).length + 1
  | v, [] => by
    have h := sizeJ_le_len v
    simp only [itemsSize, stringifyItems]
    omega
  | v, w :: vs2 => by
    have h1 := sizeJ_le_len v
    have h2 := itemsSize_le_len w vs2
    simp only [itemsSize, stringifyItems] at h2 ⊢
    simp only [List.length_append, List.length_cons]
    omega
termination_by v vs => sizeOf v + sizeOf vs

theorem fieldsSize_le_len : ∀ (kv : String × Json) (fs : List (String × Json)),
    fieldsSize (kv :: fs) ≤ (stringifyFields kv fs).length + 1
  | (k, v), [] => by
    have h := sizeJ_le_len v
    simp only [fieldsSize, stringifyFields, strChars]
    simp only [List.length_append, List.length_cons]
    omega
  | (k, v), f2 :: fs2 => by
    have h1 := sizeJ_le_len v
    have h2 := fieldsSize_le_len f2 fs2
    simp only [fieldsSize, stringifyFields, strChars] at h2 ⊢
    simp only [List.length_append, List.length_cons]
    omega
termination_by kv fs => sizeOf kv + sizeOf fs

end

lemma boundary_rsqb (rest : List Char) : boundary (']' :: rest) :=
  (by decide : (']' : Char).isDigit = false)

lemma boundary_comma (rest : List Char) : boundary (',' :: rest) :=
  (by decide : (',' : Char).isDigit = false)

lemma boundary_rbrace (rest : List Char) : boundary (rbrace :: rest) :=
  (by decide : rbrace.isDigit = false)

lemma expectChars_append (pat : List Char) : ∀ (rest : List Char),
    expectChars pat (pat ++ rest) = some rest := by
  induction pat with
  | nil => intro rest; rfl
  | cons p ps ih =>
    intro rest
    show expectChars (p :: ps) (p :: (ps ++ rest)) = some rest
    simp [expectChars, ih rest]

lemma matchLit_round (pat : List Char) (v : Json) (rest : List Char) :
    matchLit pat v (pat ++ rest) = some (v, rest) := by
  unfold matchLit
  rw [expectChars_append]

lemma parseStr_round (s : String) (rest : List Char) :
    parseStr (escapeChars s.data ++ '"' :: rest) = some (.str s, rest) := by
  unfold parseStr
  rw [parseStringBody_round]

lemma parsePos_round (m : Nat) (rest : List Char) (hb : boundary rest) :
    parsePos (natChars m ++ rest) = some (.num (m : Int), rest) := by
  unfold parsePos
  rw [parseNatChars_round m rest hb]

lemma parseNeg_round (m : Nat) (rest : List Char) (hb : boundary rest) :
    parseNeg (natChars m ++ rest) = some (.num (-(m : Int)), rest) := by
  unfold parseNeg
  rw [parseNatChars_round m rest hb]

lemma parse_round (fuel : Nat) :
    (∀ (v : Json) (rest : List Char), sizeJ v ≤ fuel → boundary rest →
      parseValue fuel (v.stringifyChars ++ rest) = some (v, rest)) ∧
    (∀ (v : Json) (vs : List Json) (rest : List Char), itemsSize (v :: vs) ≤ fuel →
      parseItems fuel (stringifyItems v vs ++ ']' :: rest) = some (v :: vs, rest)) ∧
    (∀ (kv : String × Json) (fs : List (String × Json)) (rest : List Char),
      fieldsSize (kv :: fs) ≤ fuel →
      parseFields fuel (stringifyFields kv fs ++ rbrace :: rest) = some (kv :: fs, rest)) := by
  induction fuel with
  | zero =>
    refine ⟨?_, ?_, ?_⟩
    · intro v rest hsz _
      have := sizeJ_pos v
      omega
    · intro v vs rest hsz
      have := sizeJ_pos v
      rw [itemsSize_cons] at hsz
      omega
    · intro kv fs rest hsz
      obtain ⟨k, v⟩ := kv
      have := sizeJ_pos v
      rw [fieldsSize_cons] at hsz
      omega
  | succ fuel ih =>
    obtain ⟨ihv, ihi, ihf⟩ := ih
    refine ⟨?_, ?_, ?_⟩
    · intro v rest hsz hb
      cases v with
      | null =>
        rw [show Json.stringifyChars .null ++ rest = 'n' :: (nullChars.tail ++ rest) from by
          simp [Json.stringifyChars, nullChars]]
        rw [parseValue.eq_def]
        simp [matchLit, expectChars]
      | bool b =>
        cases b with
        | false =>
          rw [show Json.stringifyChars (.bool false) ++ rest =
              'f' :: (falseChars.tail ++ rest) from by simp [Json.stringifyChars, falseChars]]
          rw [parseValue.eq_def]
          simp [matchLit, expectChars]
        | true =>
          rw [show Json.stringifyChars (.bool true) ++ rest =
              't' :: (trueChars.tail ++ rest) from by simp [Json.stringifyChars, trueChars]]
          rw [parseValue.eq_def]
          simp [matchLit, expectChars]
      | str s =>
        rw [show Json.stringifyChars (.str s) ++ rest =
            '"' :: (escapeChars s.data ++ '"' :: rest) from by
          simp [Json.stringifyChars, strChars]]
        rw [parseValue.eq_def]
        simp [parseStr_round]
      | num n =>
        cases n with
        | ofNat m =>
          have hstr : Json.stringifyChars (.num (Int.ofNat m)) = natChars m := by
            simp [Json.stringifyChars, intChars]
          rw [hstr]
          cases hnc : natChars m with
          | nil => exact absurd hnc (natChars_ne_nil m)
          | cons c cs =>
            have hcd : c.isDigit = true := natChars_all_digits m c (by rw [hnc]; simp)
            obtain ⟨h1, h2, h3, h4, h5, h6, h7⟩ := digit_head_cases c hcd
            have hpp : parsePos (c :: (cs ++ rest)) = some (.num (m : Int), rest) := by
              rw [show c :: (cs ++ rest) = natChars m ++ rest from by rw [hnc]; simp]
              exact parsePos_round m rest hb
            rw [show (c :: cs) ++ rest = c :: (cs ++ rest) from by simp]
            rw [parseValue.eq_def]
            simp [h1, h2, h3, h4, h5, h6, h7, hcd, hpp]
        | negSucc m =>
          rw [show Json.stringifyChars (.num (Int.negSucc m)) ++ rest =
              '-' :: (natChars (m + 1) ++ rest) from by
            simp [Json.stringifyChars, intChars]]
          rw [parseValue.eq_def]
          have hneg : -((m + 1 : Nat) : Int) = Int.negSucc m := by
            rw [Int.negSucc_eq]
            push_cast
            ring
          simp [parseNeg_round (m + 1) rest hb, hneg]
          omega
      | arr items =>
        cases items with
        | nil =>
          rw [show Json.stringifyChars (.arr []) ++ rest = '[' :: (']' :: rest) from by
            simp [Json.stringifyChars]]
          rw [parseValue.eq_def]
          simp [parseArr]
        | cons v vs =>
          obtain ⟨t, ht⟩ := stringifyItems_eq v vs
          obtain ⟨c, cs, hvc, hne1, hne2⟩ := stringify_head v
          have hX : stringifyItems v vs ++ ']' :: rest = c :: (cs ++ (t ++ ']' :: rest)) := by
            rw [ht, hvc]
            simp
          have hsz2 : itemsSize (v :: vs) ≤ fuel := by
            simp only [sizeJ] at hsz
            omega
          have hitems : parseItems fuel (c :: (cs ++ (t ++ ']' :: rest))) =
              some (v :: vs, rest) := by
            rw [← hX]
            exact ihi v vs rest hsz2
          rw [show Json.stringifyChars (.arr (v :: vs)) ++ rest =
              '[' :: (c :: (cs ++ (t ++ ']' :: rest))) from by
            rw [← hX]
            simp [Json.stringifyChars]]
          rw [parseValue.eq_def]
          simp [parseArr, hne1, hitems]
      | obj fields =>
        cases fields with
        | nil =>
          rw [show Json.stringifyChars (.obj []) ++ rest = lbrace :: (rbrace :: rest) from by
            simp [Json.stringifyChars]]
          rw [parseValue.eq_def]
          simp [lbrace, rbrace, parseObj]
        | cons kv fs =>
          obtain ⟨t, ht⟩ := stringifyFields_eq kv fs
          have hX : stringifyFields kv fs ++ rbrace :: rest =
              '"' :: (t ++ rbrace :: rest) := by
            rw [ht]
            simp
          have hsz2 : fieldsSize (kv :: fs) ≤ fuel := by
            simp only [sizeJ] at hsz
            omega
          have hfields : parseFields fuel ('"' :: (t ++ rbrace :: rest)) =
              some (kv :: fs, rest) := by
            rw [← hX]
            exact ihf kv fs rest hsz2
          rw [show Json.stringifyChars (.obj (kv :: fs)) ++ rest =
              lbrace :: ('"' :: (t ++ rbrace :: rest)) from by
            rw [← hX]
            simp [Json.stringifyChars]]
          rw [parseValue.eq_def]
          simp only [rbrace] at hfields
          simp [lbrace, rbrace, parseObj, hfields]
    · intro v vs rest hsz
      rw [itemsSize_cons] at hsz
      cases vs with
      | nil =>
        have hone : stringifyItems v [] ++ ']' :: rest = v.stringifyChars ++ ']' :: rest := by
          simp [stringifyItems]
        have hv := ihv v (']' :: rest) (by omega) (boundary_rsqb rest)
        rw [hone, parseItems.eq_def]
        simp [hv, parseItemsRest]
      | cons w vs2 =>
        have htwo : stringifyItems v (w :: vs2) ++ ']' :: rest =
            v.stringifyChars ++ ',' :: (stringifyItems w vs2 ++ ']' :: rest) := by
          simp [stringifyItems]
        have hsz3 : itemsSize (w :: vs2) ≤ fuel := by
          rw [itemsSize_cons] at hsz ⊢
          have := sizeJ_pos w
          omega
        have hv := ihv v (',' :: (stringifyItems w vs2 ++ ']' :: rest)) (by omega)
          (boundary_comma _)
        have hrec := ihi w vs2 rest hsz3
        rw [htwo, parseItems.eq_def]
        simp [hv, parseItemsRest, hrec]
    · intro kv fs rest hsz
      obtain ⟨k, v⟩ := kv
      rw [fieldsSize_cons] at hsz
      cases fs with
      | nil =>
        have h1 : stringifyFields (k, v) [] ++ rbrace :: rest =
            '"' :: (escapeChars k.data ++ '"' :: (':' :: (v.stringifyChars ++
              rbrace :: rest))) := by
          simp [stringifyFields, strChars]
        have hsb := parseStringBody_round k.data
          (':' :: (v.stringifyChars ++ rbrace :: rest))
        have hv := ihv v (rbrace :: rest) (by omega) (boundary_rbrace rest)
        rw [h1, parseFields.eq_def]
        simp only [rbrace] at hsb hv
        simp [hsb, parseFieldsColon, hv, parseFieldsRest, rbrace]
      | cons f2 fs2 =>
        have h1 : stringifyFields (k, v) (f2 :: fs2) ++ rbrace :: rest =
            '"' :: (escapeChars k.data ++ '"' :: (':' :: (v.stringifyChars ++
              ',' :: (stringifyFields f2 fs2 ++ rbrace :: rest)))) := by
          simp [stringifyFields, strChars]
        have hsb := parseStringBody_round k.data
          (':' :: (v.stringifyChars ++ ',' :: (stringifyFields f2 fs2 ++ rbrace :: rest)))
        have hv := ihv v (',' :: (stringifyFields f2 fs2 ++ rbrace :: rest)) (by omega)
          (boundary_comma _)
        have hsz3 : fieldsSize (f2 :: fs2) ≤ fuel := by
          obtain ⟨k2, v2⟩ := f2
          rw [fieldsSize_cons] at hsz ⊢
          have := sizeJ_pos v2
          omega
        have hrec := ihf f2 fs2 rest hsz3
        rw [h1, parseFields.eq_def]
        simp [hsb, parseFieldsColon, hv, parseFieldsRest, hrec]

lemma jsonParse_stringify (v : Json) : jsonParse (jsonStringify v) = some v := by
  have hfuel : sizeJ v ≤ v.stringifyChars.length + 1 := by
    have := sizeJ_le_len v
    omega
  have h := (parse_round (v.stringifyChars.length + 1)).1 v [] hfuel trivial
  rw [List.append_nil] at h
  show (match parseValue (v.stringifyChars.length + 1) v.stringifyChars with
    | some (v, []) => some v
    | _ => none) = some v
  rw [h]

lemma getJSON_radius :
    getJSON (Json.obj [("radius", Json.num 10)]) = "\x7b\"radius\":10\x7d" := by
  unfold getJSON jsonStringify
  have h10 : natChars 10 = ['1', '0'] := by
    unfold natChars
    norm_num
    exact ⟨by decide, by decide⟩
  simp [Json.stringifyChars, stringifyFields, strChars, escapeChars, escapeChar,
    intChars, h10, lbrace, rbrace]

section ClaimTheorems

/-- Claim C1: for every chain of fragment calls started by a facade entry
point whose kind ranks are non-decreasing and in which element, id and
pseudoElement each occur at most once, every call succeeds (the chain runs
to the end with no error, each call returning the mutated instance) and
`stringify()` returns exactly the concatenation, in call order, of each
fragment's rendered form (`value`, `#value`, `.value`, `[value]`,
`:value`, `::value`). -/
theorem valid_chain_succeeds_and_renders (l : List Call)
    (horder : List.Chain' rle (l.map Call.kind))
    (helem : (l.map Call.kind).count Kind.element ≤ 1)
    (hid : (l.map Call.kind).count Kind.id ≤ 1)
    (hpe : (l.map Call.kind).count Kind.pseudoElement ≤ 1) :
    (runChain newCssCreator l).err = none ∧
    (runChain newCssCreator l).state.stringify = renderAll l := by
  have hrun := run_ok l newCssCreator (by simpa [newCssCreator] using horder)
    (by simpa [newCssCreator, counterVal] using helem)
    (by simpa [newCssCreator, counterVal] using hid)
    (by simpa [newCssCreator, counterVal] using hpe)
  rw [hrun]
  refine ⟨rfl, ?_⟩
  show (l.foldl advance newCssCreator).template = renderAll l
  rw [foldl_advance_template]
  show "" ++ renderAll l = renderAll l
  rw [String.empty_append]

/-- Witness for C1 at the spec's own example chain
`element('a').attr('href').pseudoClass('focus')`. -/
theorem valid_chain_succeeds_and_renders_witness :
    (runChain newCssCreator
        [Call.element "a", Call.attr "href", Call.pseudoClass "focus"]).err = none ∧
    (runChain newCssCreator
        [Call.element "a", Call.attr "href", Call.pseudoClass "focus"]).state.stringify =
      renderAll [Call.element "a", Call.attr "href", Call.pseudoClass "focus"] :=
  valid_chain_succeeds_and_renders _
    (List.chain'_cons.mpr ⟨by decide, List.chain'_cons.mpr ⟨by decide, List.chain'_singleton _⟩⟩)
    (by decide) (by decide) (by decide)

/-- Claim C2: when the most recently recorded fragment kind has strictly
greater rank than the kind now being appended, the call throws exactly
`orderMessage`, and the post-state shows the order check ran before the
duplicate-counter/append step: `template` and all counters are untouched,
only `sort` has the new kind pushed (`pushState`). -/
theorem order_violation_checked_first (s : CssCreator) (c : Call) (p : Kind)
    (hlast : s.sort.getLast? = some p) (hlt : rank c.kind < rank p) :
    applyCall s c = ⟨some orderMessage, pushState s c.kind⟩ :=
  applyCall_order_fail s c p hlast hlt

/-- Witness for C2: `id('main')` followed by `element('a')`. -/
theorem order_violation_checked_first_witness :
    applyCall (cssSelectorBuilder.start (Call.id "main")).state (Call.element "a") =
      ⟨some orderMessage,
        pushState (cssSelectorBuilder.start (Call.id "main")).state Kind.element⟩ :=
  order_violation_checked_first _ _ Kind.id (by decide) (by decide)

/-- Claim C3 is refuted at `element('a').class('c').element('b')`: the
second call to `element` fails, but with the order message, not the
duplicate message, because `checkValid` runs before the counter check. -/
theorem second_element_duplicate_counterexample :
    (runChain newCssCreator
        [Call.element "a", Call.«class» "c", Call.element "b"]).err = some orderMessage ∧
    orderMessage ≠ duplicateMessage := by
  refine ⟨rfl, ?_⟩
  decide

/-- Claim C3 amended: a repeated `element` (resp. `id`) call fails with
exactly `duplicateMessage` provided the order check admits it (which in an
error-free chain means it immediately follows a fragment of rank at most
its own); a repeated `pseudoElement` call always fails with
`duplicateMessage` (its rank is maximal, so the order check always
passes); `class`, `attr` and `pseudoClass` succeed for any number of
consecutive repeated calls. -/
theorem second_restricted_call_fails_duplicate (s : CssCreator) (v : String) :
    (orderAdmits s Kind.element → 1 ≤ s.counterE →
      (s.element v).err = some duplicateMessage) ∧
    (orderAdmits s Kind.id → 1 ≤ s.counterId →
      (s.id v).err = some duplicateMessage) ∧
    (1 ≤ s.counterPe → (s.pseudoElement v).err = some duplicateMessage) ∧
    (∀ n : Nat,
      (runChain newCssCreator (List.replicate (n + 1) (Call.«class» v))).err = none) ∧
    (∀ n : Nat,
      (runChain newCssCreator (List.replicate (n + 1) (Call.attr v))).err = none) ∧
    (∀ n : Nat,
      (runChain newCssCreator (List.replicate (n + 1) (Call.pseudoClass v))).err = none) := by
  refine ⟨?_, ?_, ?_, ?_, ?_, ?_⟩
  · intro ho h1
    have hd := applyCall_dup s (Call.element v) ho
      (by unfold limitFree counterVal; show ¬s.counterE = 0; omega)
    show (applyCall s (Call.element v)).err = some duplicateMessage
    rw [hd]
  · intro ho h1
    have hd := applyCall_dup s (Call.id v) ho
      (by unfold limitFree counterVal; show ¬s.counterId = 0; omega)
    show (applyCall s (Call.id v)).err = some duplicateMessage
    rw [hd]
  · intro h1
    have hd := applyCall_dup s (Call.pseudoElement v) (orderAdmits_pseudoElement s)
      (by unfold limitFree counterVal; show ¬s.counterPe = 0; omega)
    show (applyCall s (Call.pseudoElement v)).err = some duplicateMessage
    rw [hd]
  · intro n
    exact replicate_chain_ok (Call.«class» v) (n + 1) (fun h => nomatch h)
      (fun h => nomatch h) (fun h => nomatch h)
  · intro n
    exact replicate_chain_ok (Call.attr v) (n + 1) (fun h => nomatch h)
      (fun h => nomatch h) (fun h => nomatch h)
  · intro n
    exact replicate_chain_ok (Call.pseudoClass v) (n + 1) (fun h => nomatch h)
      (fun h => nomatch h) (fun h => nomatch h)

/-- Witness for the amended C3 at concrete one-fragment states and at three
consecutive repeats of the unlimited kinds. -/
theorem second_restricted_call_fails_duplicate_witness :
    ((cssSelectorBuilder.start (Call.element "a")).state.element "b").err =
      some duplicateMessage ∧
    ((cssSelectorBuilder.start (Call.id "x")).state.id "y").err =
      some duplicateMessage ∧
    ((cssSelectorBuilder.start (Call.pseudoElement "p")).state.pseudoElement "q").err =
      some duplicateMessage ∧
    (runChain newCssCreator (List.replicate 3 (Call.«class» "c"))).err = none ∧
    (runChain newCssCreator (List.replicate 3 (Call.attr "a"))).err = none ∧
    (runChain newCssCreator (List.replicate 3 (Call.pseudoClass "p"))).err = none :=
  ⟨(second_restricted_call_fails_duplicate _ "b").1 (by decide) (by decide),
   (second_restricted_call_fails_duplicate _ "y").2.1 (by decide) (by decide),
   (second_restricted_call_fails_duplicate _ "q").2.2.1 (by decide),
   (second_restricted_call_fails_duplicate newCssCreator "c").2.2.2.1 2,
   (second_restricted_call_fails_duplicate newCssCreator "a").2.2.2.2.1 2,
   (second_restricted_call_fails_duplicate newCssCreator "p").2.2.2.2.2 2⟩

/-- Claim C4: `combine` is pure string composition, total (no ordering or
uniqueness validation), its result stringifies to the first operand, a
space, the combinator, a space, and the second operand, and nesting
composes the same way. -/
theorem combine_is_string_composition (A B : CssCreator) (c : String) :
    (cssSelectorBuilder.combine A c B).stringify =
      A.stringify ++ " " ++ c ++ " " ++ B.stringify ∧
    ∀ (X Y Z : CssCreator) (c1 c2 : String),
      (cssSelectorBuilder.combine (cssSelectorBuilder.combine X c1 Y) c2 Z).stringify =
        X.stringify ++ " " ++ c1 ++ " " ++ Y.stringify ++ " " ++ c2 ++ " " ++ Z.stringify := by
  constructor
  · show "" ++ A.template ++ " " ++ c ++ " " ++ B.template =
      A.template ++ " " ++ c ++ " " ++ B.template
    rw [String.empty_append]
  · intro X Y Z c1 c2
    show "" ++ ("" ++ X.template ++ " " ++ c1 ++ " " ++ Y.template) ++ " " ++ c2 ++
        " " ++ Z.template = _
    rw [String.empty_append, String.empty_append]
    rfl

/-- Claim C5: a call that throws (either message) does not mutate the
rendered text: `stringify()` afterwards returns exactly the text held
before the call; meanwhile `sort` keeps the pushed kind and no counter is
rolled back (they only grow). -/
theorem failing_call_preserves_text (s : CssCreator) (c : Call)
    (h : (applyCall s c).err ≠ none) :
    (applyCall s c).state.stringify = s.stringify ∧
    (applyCall s c).state.sort = s.sort ++ [c.kind] ∧
    (∀ k : Kind, counterVal s k ≤ counterVal (applyCall s c).state k) :=
  applyCall_fail_state s c h

/-- Witness for C5 at the duplicate failure `element('a').element('b')`. -/
theorem failing_call_preserves_text_witness :
    (applyCall (cssSelectorBuilder.start (Call.element "a")).state (Call.element "b")).err ≠
        none ∧
    (applyCall (cssSelectorBuilder.start (Call.element "a")).state
          (Call.element "b")).state.stringify =
      (cssSelectorBuilder.start (Call.element "a")).state.stringify ∧
    (applyCall (cssSelectorBuilder.start (Call.element "a")).state
          (Call.element "b")).state.sort =
      (cssSelectorBuilder.start (Call.element "a")).state.sort ++ [Kind.element] ∧
    (∀ k : Kind, counterVal (cssSelectorBuilder.start (Call.element "a")).state k ≤
      counterVal (applyCall (cssSelectorBuilder.start (Call.element "a")).state
          (Call.element "b")).state k) := by
  refine ⟨by decide, ?_⟩
  exact failing_call_preserves_text _ (Call.element "b") (by decide)

/-- Claim C6 is refuted: after `id('x')` the call `element('y')` throws the
order message, yet the very next call `class('c')` on the same instance
succeeds and renders `#x.c`; a failure is not permanent for the instance. -/
theorem error_not_permanent_counterexample :
    (applyCall (cssSelectorBuilder.start (Call.id "x")).state (Call.element "y")).err =
      some orderMessage ∧
    (applyCall
        (applyCall (cssSelectorBuilder.start (Call.id "x")).state (Call.element "y")).state
        (Call.«class» "c")).err = none ∧
    (applyCall
        (applyCall (cssSelectorBuilder.start (Call.id "x")).state (Call.element "y")).state
        (Call.«class» "c")).state.stringify = "#x.c" :=
  ⟨rfl, rfl, rfl⟩

/-- Claim C6 amended: a failed call leaves no error flag behind; every call
is judged afresh against the current state, succeeding exactly when the
order check admits its kind (against the last pushed kind, including kinds
pushed by failed calls) and its duplicate counter is still free. -/
theorem call_success_iff_state_admits (s : CssCreator) (c : Call) :
    (applyCall s c).err = none ↔ orderAdmits s c.kind ∧ limitFree s c.kind :=
  applyCall_err_none_iff s c

/-- Claim C7: in an error-free chain from a fresh builder the recorded kind
sequence is exactly the called kinds, the incremental adjacent check
(`Chain'`) holds for it, and so does the global non-decreasing condition
(`Pairwise`); moreover for rank order the adjacent and the global
conditions are equivalent on every kind list, so checking only against the
immediately preceding fragment equals the global check. -/
theorem incremental_order_check_is_global (l : List Call)
    (h : (runChain newCssCreator l).err = none) :
    List.Chain' rle (l.map Call.kind) ∧
    List.Pairwise rle (l.map Call.kind) ∧
    (runChain newCssCreator l).state.sort = l.map Call.kind ∧
    (∀ ks : List Kind, List.Chain' rle ks ↔ List.Pairwise rle ks) := by
  obtain ⟨hch, hsort⟩ := runChain_success_facts l newCssCreator h
  have hch2 : List.Chain' rle (l.map Call.kind) := by
    simpa [newCssCreator] using hch
  refine ⟨hch2, List.chain'_iff_pairwise.mp hch2, ?_, fun ks => List.chain'_iff_pairwise⟩
  simpa [newCssCreator] using hsort

/-- Witness for C7 at the error-free chain `element('a').id('b')`. -/
theorem incremental_order_check_is_global_witness :
    List.Chain' rle ([Call.element "a", Call.id "b"].map Call.kind) ∧
    List.Pairwise rle ([Call.element "a", Call.id "b"].map Call.kind) ∧
    (runChain newCssCreator [Call.element "a", Call.id "b"]).state.sort =
      [Call.element "a", Call.id "b"].map Call.kind ∧
    (∀ ks : List Kind, List.Chain' rle ks ↔ List.Pairwise rle ks) :=
  incremental_order_check_is_global [Call.element "a", Call.id "b"] (by decide)

/-- Claim C8: `Rectangle(w, h)` produces a plain object whose `width` is
`w`, whose `height` is `h`, and whose `getArea()` returns `w * h`; in
particular `Rectangle(10, 20).getArea()` is `200`.  `Rectangle` is total:
no validation of numeric ranges is performed. -/
theorem rectangle_fields_and_area (w h : Int) :
    (Rectangle w h).width = w ∧ (Rectangle w h).height = h ∧
    (Rectangle w h).getArea = w * h ∧ (Rectangle 10 20).getArea = 200 :=
  ⟨rfl, rfl, rfl, by decide⟩

/-- Claim C10: the facade `combine` reads its operands only through the
pure `stringify()`; with the operand states threaded explicitly it returns
both operands unchanged, and the fresh builder it returns is the one
`cssSelectorBuilder.combine` constructs, which shares no state with the
operands. -/
theorem combine_does_not_mutate_operands (A B : CssCreator) (c : String) :
    (cssSelectorBuilder.combineOp A c B).2.1 = A ∧
    (cssSelectorBuilder.combineOp A c B).2.2 = B ∧
    (cssSelectorBuilder.combineOp A c B).1 = cssSelectorBuilder.combine A c B :=
  ⟨rfl, rfl, rfl⟩

/-- Claim C9: serialization round-trips.  For every plain data object `v`,
`fromJSON proto (getJSON v)` succeeds and yields an object whose data
equals `v` and which carries the supplied prototype (capability set); in
particular deserializing the serialized radius-10 object with any
prototype yields an object with that radius field and those capabilities. -/
theorem serialize_deserialize_roundtrip (P : Type) (proto : P) (v : Json) :
    fromJSON P proto (getJSON v) = some { data := v, proto := proto } ∧
    fromJSON P proto "\x7b\"radius\":10\x7d" =
      some { data := Json.obj [("radius", Json.num 10)], proto := proto } := by
  constructor
  · unfold fromJSON getJSON
    rw [jsonParse_stringify]
  · rw [← getJSON_radius]
    unfold fromJSON getJSON
    rw [jsonParse_stringify]

end ClaimTheorems

end ObjectsTasks
